import Mathlib

/-!
Verification of the Action Resolution & Execution Pipeline of the
solana-blinks repository, as a shallow embedding in Lean 4.

The embedding follows the TypeScript sources: `src/lib/markets.ts`
(Dialect markets client, token discovery and the Protocol Catalog URL
builders) and the CLI command layer (`inspect`, `execute` and the
protocol commands).  JavaScript numbers appearing only in order
comparisons and string interpolation are embedded as `Int`; JavaScript
strings as `String`, manipulated through their character lists so that
theorems about prefixes and slices stay provable.  The modules
`lib/actions.ts`, `lib/blinks.ts` and `lib/registry.ts` are not among
the staged sources; the definitions standing in for them are modelled
from the specification and say so in their doc comment.
-/

namespace SolanaBlinks

/-! ## String helpers

JavaScript string operations used by the source, defined on the
character list of a `String` so that proofs can proceed by list
reasoning. -/

/-- Characters of `s` begin with the characters of `p`
(JS `String.prototype.startsWith`). -/
def strStarts (p s : String) : Bool :=
  p.data.isPrefixOf s.data

/-- Drop the first `n` characters (JS `String.prototype.slice(n)`). -/
def strDropN (n : Nat) (s : String) : String :=
  ⟨s.data.drop n⟩

/-- Uppercase every character (JS `String.prototype.toUpperCase`). -/
def strUpper (s : String) : String :=
  ⟨s.data.map Char.toUpper⟩

theorem strData_append (a b : String) : (a ++ b).data = a.data ++ b.data :=
  rfl

theorem strStarts_iff {p s : String} : strStarts p s = true ↔ p.data <+: s.data := by
  simp [strStarts, List.isPrefixOf_iff_prefix]

theorem strStarts_append_right {p s : String} (t : String)
    (h : strStarts p s = true) : strStarts p (s ++ t) = true := by
  rw [strStarts_iff] at h ⊢
  rw [strData_append]
  exact h.trans (List.prefix_append _ _)

theorem strStarts_self_append (p t : String) : strStarts p (p ++ t) = true := by
  rw [strStarts_iff, strData_append]
  exact List.prefix_append _ _

theorem strStarts_trans {p q s : String} (hqp : strStarts q p = true)
    (hps : strStarts p s = true) : strStarts q s = true := by
  rw [strStarts_iff] at hqp hps ⊢
  exact hqp.trans hps

theorem head_of_strStarts {p s : String} {c : Char}
    (h : strStarts p s = true) (hc : p.data.head? = some c) :
    s.data.head? = some c := by
  rw [strStarts_iff] at h
  obtain ⟨t, ht⟩ := h
  cases hp : p.data with
  | nil => rw [hp] at hc; exact absurd hc (by simp)
  | cons a as =>
    rw [hp] at hc ht
    rw [← ht]
    simpa using hc

theorem strStarts_false_of_heads {p q s : String} {c d : Char}
    (hp : p.data.head? = some c) (hq : q.data.head? = some d) (hcd : c ≠ d)
    (hs : strStarts p s = true) : strStarts q s = false := by
  cases h : strStarts q s with
  | false => rfl
  | true =>
    have h1 := head_of_strStarts hs hp
    have h2 := head_of_strStarts h hq
    rw [h1] at h2
    exact absurd (Option.some.inj h2) hcd

theorem strDropN_append (p t : String) : strDropN p.data.length (p ++ t) = t := by
  simp only [strDropN, strData_append, List.drop_left]

/-! ## Data model of the Dialect markets client (`src/lib/markets.ts`) -/

/-- Token descriptor inside a `DialectMarket`. -/
structure TokenRef where
  address : String
  symbol : String
  decimals : Nat
  icon : String
  deriving Repr, DecidableEq

/-- Provider descriptor inside a `DialectMarket`. -/
structure ProviderRef where
  id : String
  name : String
  icon : String
  deriving Repr, DecidableEq

/-- One entry of a market's `actions` record: a stored blink URL. -/
structure BlinkActionData where
  blinkUrl : String
  deriving Repr, DecidableEq

/-- The `actions` record of a `DialectMarket`: each action is optional. -/
structure MarketActions where
  deposit : Option BlinkActionData
  withdraw : Option BlinkActionData
  borrow : Option BlinkActionData
  repay : Option BlinkActionData
  claimRewards : Option BlinkActionData
  deriving Repr, DecidableEq

/-- Market data from the Dialect API (`interface DialectMarket`), restricted
to the fields the verified operations read.  The numeric fields appear only
in order comparisons, so they are embedded as `Int`. -/
structure DialectMarket where
  id : String
  provider : ProviderRef
  token : TokenRef
  websiteUrl : String
  depositApy : Int
  totalDeposit : Int
  totalDepositUsd : Int
  actions : MarketActions
  deriving Repr, DecidableEq

/-- The five action names `getBlinkUrl` accepts. -/
inductive MarketActionName where
  | deposit
  | withdraw
  | borrow
  | repay
  | claimRewards
  deriving Repr, DecidableEq

/-- Lookup `market.actions[action]`. -/
def MarketActions.get (a : MarketActions) : MarketActionName → Option BlinkActionData
  | .deposit => a.deposit
  | .withdraw => a.withdraw
  | .borrow => a.borrow
  | .repay => a.repay
  | .claimRewards => a.claimRewards

/-- `MarketsClient.getBlinkUrl`: `null` when the market has no data for the
action, otherwise the stored URL with a leading `blink:` marker removed by
`slice(6)`. -/
def getBlinkUrl (market : DialectMarket) (action : MarketActionName) : Option String :=
  match market.actions.get action with
  | none => none
  | some actionData =>
    some (if strStarts "blink:" actionData.blinkUrl then strDropN 6 actionData.blinkUrl
          else actionData.blinkUrl)

/-! ## findBestYield (`MarketsClient.findBestYield`)

The markets list is the response of `listMarkets` (a network call), so it
is a parameter here.  JavaScript truthiness of the numeric options matters:
`if (options?.minApy && ...)` skips the guard when `minApy` is absent or 0. -/

/-- Options of `findBestYield`. -/
structure FindBestYieldOptions where
  minApy : Option Int := none
  minTvl : Option Int := none
  providers : Option (List String) := none
  deriving Repr, DecidableEq

/-- JS truthiness of an optional number: absent and `0` are both falsy. -/
def optNumTruthy : Option Int → Bool
  | none => false
  | some v => v != 0

/-- The filter predicate of `findBestYield`, mirroring its three
early-return guards. -/
def findBestYieldKeeps (o : FindBestYieldOptions) (m : DialectMarket) : Bool :=
  if optNumTruthy o.minApy && decide (m.depositApy < o.minApy.getD 0) then false
  else if optNumTruthy o.minTvl && decide (m.totalDepositUsd < o.minTvl.getD 0) then false
  else if o.providers.isSome && !((o.providers.getD []).contains m.provider.id) then false
  else true

/-- Sort order of the result: `.sort((a, b) => b.depositApy - a.depositApy)`,
a stable sort into non-increasing `depositApy`. -/
def apyDesc (a b : DialectMarket) : Prop :=
  b.depositApy ≤ a.depositApy

instance : DecidableRel apyDesc :=
  fun a b => inferInstanceAs (Decidable (b.depositApy ≤ a.depositApy))

instance : IsTotal DialectMarket apyDesc :=
  ⟨fun a b => (Int.le_total a.depositApy b.depositApy).symm⟩

instance : IsTrans DialectMarket apyDesc :=
  ⟨fun _ _ _ hab hbc => le_trans hbc hab⟩

/-- `MarketsClient.findBestYield` applied to the fetched market list:
filter, then stable sort by descending `depositApy` (ES2019 `Array.sort`
is stable; it is embedded as insertion sort by `apyDesc`). -/
def findBestYield (markets : List DialectMarket) (o : FindBestYieldOptions) :
    List DialectMarket :=
  List.insertionSort apyDesc (markets.filter (findBestYieldKeeps o))

/-! ## Token discovery and the Protocol Catalog URL builders
(`src/lib/markets.ts`, part 2) -/

/-- The static `COMMON_TOKENS` record, as a lookup from symbol to mint. -/
def COMMON_TOKENS : String → Option String
  | "SOL" => some "So11111111111111111111111111111111111111112"
  | "USDC" => some "EPjFWdd5AufqSSqeM2qN1xzybapC8G4wEGGkZwyTDt1v"
  | "USDT" => some "Es9vMFrzaCERmJfrF4H2FYD4KCoNkY11McCe8BenwNYB"
  | "PYUSD" => some "2b1kV6DkPAnxd5ixfnxCpjxmKwqjjaYmCZfHsFu24GXo"
  | "UXD" => some "7kbnvuGBxxj8AG9qp8Scn56muWGaRaFqxg1FsRp3PaFT"
  | "JITOSOL" => some "J1toso1uCk3RLmjorhTtrVwY9HJ7X8V9yYac6Y7kGCPn"
  | "MSOL" => some "mSoLzYCxHdYgdzU16g5QSh3i5K3z3KZK7ytfqcJm7So"
  | "BSOL" => some "bSo13r4TkiE4KumL71LsHTPpL2euBYLFx6h9HP3piy1"
  | "INF" => some "5oVNBeEEQvYi1cX3ir8Dx5n1P7pdxydbGF2X4TxVusJm"
  | "JUP" => some "JUPyiwrYJFskUPiHa7hkeR8VUtAeFoSYbKedZNsDvCN"
  | "RAY" => some "4k3Dyjzvzp8eMZWUXbBCjEvwSkkk59S5iCNLY3QrkX6R"
  | "ORCA" => some "orcaEKTdK7LKz57vaAYr9QeNsVEPfiu6QeMU1kektZE"
  | "MNDE" => some "MNDEFzGvMt87ueuHvVU9VcTqsAP5b3fTGPsHuuPA5ey"
  | "JLP" => some "27G8MtK7VtTcCHkpASjSDdkWWYfoqT6ggEuKidVJidD4"
  | "BONK" => some "DezXAZ8z7PnrnRJjz3wXBoRgixCa6xjnB7YaB1pPB263"
  | "WIF" => some "EKpQGSJtjMFqKZ9KQanSqYXRcF8fBopzLHYxdM65zcjm"
  | "POPCAT" => some "7GCihgDB8fe6KNjn2MYtkzZcRjQy3t9GHdC8uHYmW2hr"
  | "MYRO" => some "HhJpBhRRn4g56VsyLuT8DL5Bv31HkXqsrahTTUCZeZg4"
  | "PYTH" => some "HZ1JovNiVvGrGNiiYvEozEVgZ58xaU3RKwX8eACQBCt3"
  | "HNT" => some "hntyVP6YFm1Hg25TN9WGLqM12b8TQmcknKrdu1oxWux"
  | "RENDER" => some "rndrizKT3MK1iimdxRdWabcF7Zg7AR5T4nud4EkHBof"
  | "W" => some "85VBFQZC9TZkfaptBWjvUw7YbZjy52A6mjtPGjstQAmQ"
  | _ => none

/-- `resolveTokenMint`: a known symbol (after uppercasing) becomes its mint,
anything else is assumed to already be a mint address. -/
def resolveTokenMint (tokenOrMint : String) : String :=
  match COMMON_TOKENS (strUpper tokenOrMint) with
  | some mint => mint
  | none => tokenOrMint

/-- Text a JS template literal renders for an optional numeric amount
(`undefined` when absent). -/
def optAmtText : Option Int → String
  | some a => toString a
  | none => "undefined"

/-- `buildJupiterSwapUrl`: symbol format when both tokens are known and no
truthy amount is given, mint-address format otherwise. -/
def buildJupiterSwapUrl (inputToken outputToken : String) (amount : Option Int) : String :=
  let base := "https://worker.jup.ag/blinks/swap"
  let inputUpper := strUpper inputToken
  let outputUpper := strUpper outputToken
  match COMMON_TOKENS inputUpper, COMMON_TOKENS outputUpper with
  | some inputMint, some outputMint =>
    if optNumTruthy amount then
      base ++ "/" ++ inputMint ++ "/" ++ outputMint ++ "/" ++ optAmtText amount
    else
      base ++ "/" ++ inputUpper ++ "-" ++ outputUpper
  | _, _ =>
    let inputMint := resolveTokenMint inputToken
    let outputMint := resolveTokenMint outputToken
    if optNumTruthy amount then
      base ++ "/" ++ inputMint ++ "/" ++ outputMint ++ "/" ++ optAmtText amount
    else
      base ++ "/" ++ inputMint ++ "-" ++ outputMint

/-- `buildRaydiumSwapUrl` (amount is a required parameter here). -/
def buildRaydiumSwapUrl (inputMint outputMint : String) (amount : Int) : String :=
  "https://share.raydium.io/dialect/actions/swap/tx?inputMint=" ++ resolveTokenMint inputMint
    ++ "&outputMint=" ++ resolveTokenMint outputMint ++ "&amount=" ++ toString amount

/-- `buildKaminoDepositUrl`: the amount query parameter is appended only for
a truthy amount. -/
def buildKaminoDepositUrl (vaultSlug : String) (amount : Option Int) : String :=
  let base := "https://kamino.dial.to/api/v0/lend/" ++ vaultSlug ++ "/deposit"
  if optNumTruthy amount then base ++ "?amount=" ++ optAmtText amount else base

/-- `buildKaminoWithdrawUrl`. -/
def buildKaminoWithdrawUrl (vaultSlug : String) (amount : Option Int) : String :=
  let base := "https://kamino.dial.to/api/v0/lend/" ++ vaultSlug ++ "/withdraw"
  if optNumTruthy amount then base ++ "?amount=" ++ optAmtText amount else base

/-- `buildJitoStakeUrl`. -/
def buildJitoStakeUrl (amount : Option Int) : String :=
  if optNumTruthy amount then "https://jito.network/stake/amount/" ++ optAmtText amount
  else "https://jito.network/stake"

/-- `buildMagicEdenBuyUrl`. -/
def buildMagicEdenBuyUrl (nftMint : String) : String :=
  "https://api-mainnet.magiceden.dev/actions/buyNow/" ++ nftMint

/-- `buildTensorBuyFloorUrl`. -/
def buildTensorBuyFloorUrl (collection : String) : String :=
  "https://tensor.dial.to/buy-floor/" ++ collection

/-- Text a JS template literal renders for an optional string argument:
a call that omits a required parameter interpolates `undefined`. -/
def jsTemplateStr : Option String → String
  | some s => s
  | none => "undefined"

/-- `buildKaminoDepositUrl` as JavaScript runs a call whose vault-slug
argument may be absent: the source performs no presence check, so the
missing argument is interpolated as the text `undefined`. -/
def buildKaminoDepositUrlJs (vaultSlug : Option String) (amount : Option Int) : String :=
  buildKaminoDepositUrl (jsTemplateStr vaultSlug) amount

/-- `buildKaminoWithdrawUrl` with a possibly-absent vault-slug argument. -/
def buildKaminoWithdrawUrlJs (vaultSlug : Option String) (amount : Option Int) : String :=
  buildKaminoWithdrawUrl (jsTemplateStr vaultSlug) amount

/-! ## Error taxonomy (spec section 7) -/

/-- The error kinds of the specification's error-handling design; the
modelled components fail with these, and claims about failure modes are
stated against them. -/
inductive ErrKind where
  | invalidUrlKind
  | actionFetchError (statusCode : Nat)
  | actionTimeoutError
  | actionSchemaError
  | actionTransactionError
  | untrustedHostBlocked
  | missingTemplateParameter
  deriving Repr, DecidableEq

/-- Catalog construction at the surface the specification describes: the
source builder is a total `String` function, so every call succeeds; the
`Except` form only makes the specified failure mode expressible. -/
def catalogConstructKaminoDepositUrl (vaultSlug : Option String) (amount : Option Int) :
    Except ErrKind String :=
  .ok (buildKaminoDepositUrlJs vaultSlug amount)

/-! ## URL Resolver

Modelled from the spec: the resolver (`parseBlinkUrl` of `lib/blinks.ts`
and `ActionsClient.parseActionUrl` of `lib/actions.ts`) is exported by the
package but its module is not among the staged sources.  Spec section 4.1:
recognized prefixes are tried in a fixed priority order (explicit protocol
marker, then interstitial, then bare URL), exactly one transformation is
applied, and the result is re-validated as an HTTPS URL; the interstitial
`action` parameter is URL-decoded at most once and resolved with one extra
hop only. -/

/-- Value of a hexadecimal digit, for percent-decoding. -/
def hexDigitVal (c : Char) : Option Nat :=
  if '0' ≤ c ∧ c ≤ '9' then some (c.toNat - '0'.toNat)
  else if 'a' ≤ c ∧ c ≤ 'f' then some (c.toNat - 'a'.toNat + 10)
  else if 'A' ≤ c ∧ c ≤ 'F' then some (c.toNat - 'A'.toNat + 10)
  else none

/-- Percent-decoding over a character list (URL-decoding applied once):
a valid `%hh` escape becomes its character, anything else is kept. -/
def pctDecodeAux : List Char → List Char
  | [] => []
  | [c] => [c]
  | [c, d] => [c, d]
  | c :: a :: b :: rest =>
    if c = '%' then
      match hexDigitVal a, hexDigitVal b with
      | some x, some y => Char.ofNat (16 * x + y) :: pctDecodeAux rest
      | _, _ => c :: pctDecodeAux (a :: b :: rest)
    else c :: pctDecodeAux (a :: b :: rest)

/-- Modelled from the spec: URL-decoding of the interstitial `action`
parameter. -/
def pctDecode (s : String) : String :=
  ⟨pctDecodeAux s.data⟩

theorem pctDecodeAux_eq_self : ∀ l : List Char, '%' ∉ l → pctDecodeAux l = l
  | [], _ => rfl
  | [_], _ => rfl
  | [_, _], _ => rfl
  | c :: a :: b :: rest, h => by
    have hc : c ≠ '%' := fun hc => h (hc ▸ List.mem_cons_self c _)
    have hr : '%' ∉ a :: b :: rest := fun hr => h (List.mem_cons_of_mem c hr)
    simp [pctDecodeAux, hc, pctDecodeAux_eq_self (a :: b :: rest) hr]

theorem pctDecode_eq_self {s : String} (h : '%' ∉ s.data) : pctDecode s = s := by
  simp only [pctDecode, pctDecodeAux_eq_self s.data h]

/-- Modelled from the spec: CanonicalUrl validation — a CanonicalUrl is
always of `https://` scheme and construction fails otherwise with
`InvalidUrlKind`. -/
def mkCanonicalUrl (s : String) : Except ErrKind String :=
  if strStarts "https://" s then .ok s else .error .invalidUrlKind

/-- Modelled from the spec: the URL Resolver with an explicit hop budget
for the interstitial form.  Priority order per spec section 4.1: protocol
markers (`solana-action:` then `blink:`), then the `dial.to` interstitial,
then a bare URL; each match applies one transformation and re-validates. -/
def resolveActionUrlFuel : Nat → String → Except ErrKind String
  | fuel, s =>
    if strStarts "solana-action:" s then mkCanonicalUrl (strDropN 14 s)
    else if strStarts "blink:" s then mkCanonicalUrl (strDropN 6 s)
    else if strStarts "https://dial.to/?action=" s then
      match fuel with
      | 0 => .error .invalidUrlKind
      | f + 1 => resolveActionUrlFuel f (pctDecode (strDropN 24 s))
    else mkCanonicalUrl s

/-- Modelled from the spec: the URL Resolver — one interstitial hop is
allowed, a second nested interstitial is an error. -/
def resolveActionUrl (s : String) : Except ErrKind String :=
  resolveActionUrlFuel 1 s

/-! ## Trust Registry and the trust query of the execute path

The registry module (`lib/registry.ts`) and the executor's
`isTrustedHost` (`lib/blinks.ts` / `lib/actions.ts`) are not among the
staged sources; they are modelled from the spec and the package's API
reference, which declares `isTrustedHost(url: string): boolean`.  The CLI
(`execute` command) consumes exactly that boolean. -/

/-- Host portion of an HTTPS URL: the characters after `https://` up to
the first `/`, `?` or `:` (modelled from the spec's notion of the
CanonicalUrl's host). -/
def urlHost (s : String) : String :=
  ⟨(s.data.drop 8).takeWhile (fun c => !(c == '/' || c == '?' || c == ':'))⟩

/-- Three-way classification of a host against a registry snapshot
(spec section 4.2 and the glossary). -/
inductive TrustStatus where
  | trusted
  | unknown
  | malicious
  deriving Repr, DecidableEq

/-- Modelled from the spec: the registry's classification — a host on the
malicious list is `Malicious`, else on the trusted list `Trusted`, else
`Unknown`. -/
def classifyHost (trusted malicious : List String) (host : String) : TrustStatus :=
  if malicious.contains host then .malicious
  else if trusted.contains host then .trusted
  else .unknown

/-- Modelled from the spec: `BlinksExecutor.isTrustedHost(url): boolean` —
whether the URL's host appears in the trusted-host list.  Note the
boolean codomain: this is the query the `execute` command consumes. -/
def blinksIsTrustedHost (trustedHosts : List String) (url : String) : Bool :=
  trustedHosts.contains (urlHost url)

/-! ## The CLI `execute` command

Embedding of the `execute <url>` command action of the CLI: wallet setup,
an advisory trust check that only prints a warning, `getTransaction`, then
either `simulate` (dry run) or `signAndSend`, with every caught error
surfaced and mapped to `process.exit(1)`.  The collaborators (wallet
loading, the POST exchange, simulation, sign-and-send) are supplied as
oracle outcomes, and the embedding records how often each collaborator is
invoked. -/

/-- `BlinkTransaction`: the unsigned transaction payload of the POST
phase. -/
structure BlinkTransaction where
  encodedTransaction : String
  message : Option String
  deriving Repr, DecidableEq

/-- Result of the external simulation collaborator. -/
structure SimulationResult where
  success : Bool
  unitsConsumed : Option Nat
  error : Option String
  deriving Repr, DecidableEq

/-- Observable outcome of one run of the `execute` command: the warning
flag, how often each collaborator was called, the exit code, and the
surfaced error message (if any). -/
structure ExecuteOutcome where
  warnedUntrusted : Bool
  getTransactionCalls : Nat
  simulateCalls : Nat
  signAndSendCalls : Nat
  exitCode : Nat
  surfaced : Option String
  deriving Repr, DecidableEq

/-- Whether an `Except` is a success. -/
def exceptOk : Except ε α → Bool
  | .ok _ => true
  | .error _ => false

/-- The `execute` command action.  Control flow as in the source: wallet
loading precedes everything; the trust check is `isTrustedHost` and only
emits a warning when false; `getTransaction` is always attempted next;
then exactly one of `simulate` (when `--dry-run`) or `signAndSend` runs.
A thrown error anywhere is caught once and leads to `process.exit(1)`;
note that a dry run reaching `console.log` exits 0 even when the
simulation result itself reports `success: false`. -/
def executeCommand (trustedHosts : List String) (url : String) (dryRun : Bool)
    (walletResult : Except String Unit)
    (txResult : Except String BlinkTransaction)
    (simResult : Except String SimulationResult)
    (sendResult : Except String String) : ExecuteOutcome :=
  match walletResult with
  | .error m => ⟨false, 0, 0, 0, 1, some m⟩
  | .ok _ =>
    let trusted := blinksIsTrustedHost trustedHosts url
    match txResult with
    | .error m => ⟨!trusted, 1, 0, 0, 1, some m⟩
    | .ok _ =>
      if dryRun then
        match simResult with
        | .error m => ⟨!trusted, 1, 1, 0, 1, some m⟩
        | .ok _ => ⟨!trusted, 1, 1, 0, 0, none⟩
      else
        match sendResult with
        | .error m => ⟨!trusted, 1, 0, 1, 1, some m⟩
        | .ok _ => ⟨!trusted, 1, 0, 1, 0, none⟩

/-! ## The inspect pipeline and the CLI `inspect` command

`BlinksExecutor.inspect` is not among the staged sources; the pipeline is
modelled from spec section 4.4 (resolve, advisory trust flag, metadata
fetch, flattening with relative-href resolution) over an oracle HTTP
response, and the `inspect` command maps any error to exit code 1 exactly
as the source's catch handler does. -/

/-- One action link of the metadata (`LinkedAction`). -/
structure LinkedAction where
  label : String
  href : String
  deriving Repr, DecidableEq

/-- Action metadata (`ActionMetadata`), with its flattened action links. -/
structure ActionMetadata where
  title : String
  description : String
  iconUrl : String
  label : String
  actions : List LinkedAction
  deriving Repr, DecidableEq

/-- An HTTP response for the GET phase: a status code and, when the body
parses into the expected shape, the parsed metadata. -/
structure HttpResp where
  status : Nat
  body : Option ActionMetadata
  deriving Repr, DecidableEq

/-- Modelled from the spec: `getMetadata` of the Action Protocol Client
(section 4.3) — non-2xx fails with `ActionFetchError{statusCode}`, a body
not matching the expected shape fails with `ActionSchemaError`. -/
def getMetadata (resp : HttpResp) : Except ErrKind ActionMetadata :=
  if 200 ≤ resp.status ∧ resp.status < 300 then
    match resp.body with
    | some md => .ok md
    | none => .error .actionSchemaError
  else .error (.actionFetchError resp.status)

/-- The externally visible artifact of a successful inspection. -/
structure InspectResult where
  canonicalUrl : String
  trusted : Bool
  metadata : ActionMetadata
  actions : List LinkedAction
  deriving Repr, DecidableEq

/-- Modelled from the spec: joining a relative `href` against the
CanonicalUrl's origin (section 4.4, step 4). -/
def resolveHref (canonical href : String) : String :=
  if strStarts "/" href then "https://" ++ urlHost canonical ++ href else href

/-- Modelled from the spec: the inspect pipeline (section 4.4) — resolve,
query the trust flag, fetch metadata, flatten the action list; every
failure propagates unmodified. -/
def inspectPipeline (trustedHosts : List String) (rawUrl : String) (resp : HttpResp) :
    Except ErrKind InspectResult :=
  match resolveActionUrl rawUrl with
  | .error e => .error e
  | .ok canonical =>
    match getMetadata resp with
    | .error e => .error e
    | .ok md =>
      .ok { canonicalUrl := canonical
            trusted := trustedHosts.contains (urlHost canonical)
            metadata := md
            actions := md.actions.map (fun a => { a with href := resolveHref canonical a.href }) }

/-- Observable outcome of one run of the `inspect` command. -/
structure CmdOutcome where
  exitCode : Nat
  err : Option ErrKind
  deriving Repr, DecidableEq

/-- The `inspect` command action: print the result on success, otherwise
surface the error and `process.exit(1)`. -/
def inspectCommand (trustedHosts : List String) (url : String) (resp : HttpResp) :
    CmdOutcome :=
  match inspectPipeline trustedHosts url resp with
  | .ok _ => { exitCode := 0, err := none }
  | .error e => { exitCode := 1, err := some e }

/-! ## Concrete data used by counterexamples and scenario instances -/

/-- A small trusted-host registry snapshot. -/
def cexTrustedHosts : List String :=
  ["kamino.dial.to", "jito.dial.to", "worker.jup.ag"]

/-- A malicious-host registry snapshot containing one deny-listed host. -/
def cexMaliciousHosts : List String :=
  ["evil.example"]

/-- A concrete transaction payload returned by a POST oracle. -/
def cexTx : BlinkTransaction :=
  { encodedTransaction := "AAECAwQ=", message := some "deposit 1 SOL" }

/-- A concrete successful simulation result. -/
def cexSim : SimulationResult :=
  { success := true, unitsConsumed := some 5000, error := none }

/-- A market whose deposit APY is negative, as the `DialectMarket` number
type permits. -/
def cexYieldMarket : DialectMarket :=
  { id := "m-neg"
    provider := { id := "kamino", name := "Kamino", icon := "" }
    token := { address := "EPjFWdd5AufqSSqeM2qN1xzybapC8G4wEGGkZwyTDt1v",
               symbol := "USDC", decimals := 6, icon := "" }
    websiteUrl := ""
    depositApy := -1
    totalDeposit := 0
    totalDepositUsd := 1000
    actions := ⟨none, none, none, none, none⟩ }

/-- Options supplying `minApy = 0`: present, but falsy to JavaScript. -/
def cexYieldOptions : FindBestYieldOptions :=
  { minApy := some 0, minTvl := none, providers := none }

/-! ## Helper lemmas -/

theorem strStarts_recover {p s : String} (h : strStarts p s = true) :
    s = p ++ strDropN p.data.length s := by
  rw [strStarts_iff] at h
  obtain ⟨t, ht⟩ := h
  have hd : s.data.drop p.data.length = t := by
    rw [← ht, List.drop_left]
  apply String.ext
  rw [strData_append]
  simp only [strDropN]
  rw [hd, ht]

theorem mkCanonicalUrl_ok_https {s c : String} (h : mkCanonicalUrl s = Except.ok c) :
    strStarts "https://" c = true := by
  unfold mkCanonicalUrl at h
  split at h
  · cases h
    assumption
  · cases h

theorem strStarts_https_append (s t : String) (h : strStarts "https://" s = true) :
    strStarts "https://" (s ++ t) = true :=
  strStarts_append_right t h

/-! ## C5: getBlinkUrl -/

/-- C5.  For every DialectMarket and action name, `getBlinkUrl` returns
`null` exactly when the market stores no blink URL for that action;
otherwise, a stored URL starting with the marker `blink:` comes back with
that 6-character prefix removed (the original is the marker followed by the
result), and any other URL comes back unchanged. -/
theorem getBlinkUrl_spec : ∀ (market : DialectMarket) (action : MarketActionName),
    (market.actions.get action = none → getBlinkUrl market action = none) ∧
    (∀ a, market.actions.get action = some a →
      ∃ r, getBlinkUrl market action = some r ∧
        ((strStarts "blink:" a.blinkUrl = true ∧ a.blinkUrl = "blink:" ++ r) ∨
         (strStarts "blink:" a.blinkUrl = false ∧ r = a.blinkUrl))) := by
  intro market action
  constructor
  · intro h
    simp [getBlinkUrl, h]
  · intro a h
    cases hb : strStarts "blink:" a.blinkUrl with
    | true =>
      refine ⟨strDropN 6 a.blinkUrl, by simp [getBlinkUrl, h, hb], Or.inl ⟨rfl, ?_⟩⟩
      exact strStarts_recover hb
    | false =>
      exact ⟨a.blinkUrl, by simp [getBlinkUrl, h, hb], Or.inr ⟨rfl, rfl⟩⟩

/-! ## C10: a zero amount is treated as an absent amount -/

/-- C10.  Each catalog URL builder treats `amount = 0` exactly as an
omitted amount (JavaScript truthiness drops the parameter silently):
the produced URL is identical in the two calls. -/
theorem builders_amount_zero : ∀ (vaultSlug inputToken outputToken : String),
    buildKaminoDepositUrl vaultSlug (some 0) = buildKaminoDepositUrl vaultSlug none ∧
    buildKaminoWithdrawUrl vaultSlug (some 0) = buildKaminoWithdrawUrl vaultSlug none ∧
    buildJitoStakeUrl (some 0) = buildJitoStakeUrl none ∧
    buildJupiterSwapUrl inputToken outputToken (some 0)
      = buildJupiterSwapUrl inputToken outputToken none := by
  intro v i o
  refine ⟨?_, ?_, ?_, ?_⟩
  · simp [buildKaminoDepositUrl, optNumTruthy]
  · simp [buildKaminoWithdrawUrl, optNumTruthy]
  · simp [buildJitoStakeUrl, optNumTruthy]
  · cases h1 : COMMON_TOKENS (strUpper i) <;> cases h2 : COMMON_TOKENS (strUpper o) <;>
      simp [buildJupiterSwapUrl, h1, h2, optNumTruthy]

/-! ## C3: catalog construction is pure templating and never fails -/

/-- C3 counterexample.  Calling the Kamino deposit builder with its
required vault-slug parameter absent does not fail with
`MissingTemplateParameter`: the call succeeds and interpolates the text
`undefined` into the path. -/
theorem catalog_missing_param_succeeds_cex :
    catalogConstructKaminoDepositUrl none none
      = Except.ok "https://kamino.dial.to/api/v0/lend/undefined/deposit" ∧
    catalogConstructKaminoDepositUrl none none
      ≠ Except.error ErrKind.missingTemplateParameter := by
  exact ⟨rfl, by simp [catalogConstructKaminoDepositUrl]⟩

/-- C3 amended.  Catalog URL construction is pure string templating with no
network access and it never fails: with the parameters present the call
succeeds with the templated path, and an absent required parameter is not
validated — the call behaves exactly as if the literal text `undefined`
had been supplied. -/
theorem catalog_templating_total : ∀ (vaultSlug : String) (amount : Option Int),
    buildKaminoDepositUrl vaultSlug none
      = "https://kamino.dial.to/api/v0/lend/" ++ vaultSlug ++ "/deposit" ∧
    (∀ v : Int, v ≠ 0 → buildKaminoDepositUrl vaultSlug (some v)
      = "https://kamino.dial.to/api/v0/lend/" ++ vaultSlug ++ "/deposit"
          ++ "?amount=" ++ toString v) ∧
    buildKaminoDepositUrlJs none amount = buildKaminoDepositUrl "undefined" amount ∧
    buildKaminoWithdrawUrlJs none amount = buildKaminoWithdrawUrl "undefined" amount ∧
    catalogConstructKaminoDepositUrl (some vaultSlug) amount
      = Except.ok (buildKaminoDepositUrl vaultSlug amount) := by
  intro v amt
  refine ⟨by simp [buildKaminoDepositUrl, optNumTruthy], ?_, rfl, rfl, rfl⟩
  intro x hx
  simp [buildKaminoDepositUrl, optNumTruthy, optAmtText, hx]

/-! ## C2: dry run and submission are mutually exclusive -/

/-- C2.  Per `execute` call, a dry run never invokes the sign-and-send
collaborator, a non-dry run never invokes the simulation collaborator,
and once the transaction fetch has succeeded exactly one of the two
collaborators runs. -/
theorem execute_dry_run_exclusive : ∀ (trustedHosts : List String) (url : String)
    (walletResult : Except String Unit) (txResult : Except String BlinkTransaction)
    (simResult : Except String SimulationResult) (sendResult : Except String String),
    (executeCommand trustedHosts url true walletResult txResult simResult
        sendResult).signAndSendCalls = 0 ∧
    (executeCommand trustedHosts url false walletResult txResult simResult
        sendResult).simulateCalls = 0 ∧
    (∀ dryRun, exceptOk walletResult = true → exceptOk txResult = true →
      (executeCommand trustedHosts url dryRun walletResult txResult simResult
          sendResult).simulateCalls +
      (executeCommand trustedHosts url dryRun walletResult txResult simResult
          sendResult).signAndSendCalls = 1) := by
  intro T url w tx sim snd
  refine ⟨?_, ?_, ?_⟩
  · cases w <;> cases tx <;> cases sim <;> simp [executeCommand]
  · cases w <;> cases tx <;> cases snd <;> simp [executeCommand]
  · intro dr hw htx
    cases w with
    | error m => simp [exceptOk] at hw
    | ok u =>
      cases tx with
      | error m => simp [exceptOk] at htx
      | ok t => cases dr <;> cases sim <;> cases snd <;> simp [executeCommand]

/-! ## C1: the execute trust check is advisory, not a hard gate -/

/-- C1 counterexample.  A request whose resolved host is classified
`Malicious` by the registry model is not blocked: the `execute` command
still makes its Protocol Client call (`getTransaction` is invoked once),
proceeds to sign-and-send, and exits 0. -/
theorem execute_malicious_still_calls_cex :
    classifyHost cexTrustedHosts cexMaliciousHosts (urlHost "https://evil.example/api/action")
      = TrustStatus.malicious ∧
    (executeCommand cexTrustedHosts "https://evil.example/api/action" false (Except.ok ())
        (Except.ok cexTx) (Except.ok cexSim) (Except.ok "5igSig")).getTransactionCalls = 1 ∧
    (executeCommand cexTrustedHosts "https://evil.example/api/action" false (Except.ok ())
        (Except.ok cexTx) (Except.ok cexSim) (Except.ok "5igSig")).signAndSendCalls = 1 ∧
    (executeCommand cexTrustedHosts "https://evil.example/api/action" false (Except.ok ())
        (Except.ok cexTx) (Except.ok cexSim) (Except.ok "5igSig")).exitCode = 0 := by
  exact ⟨by decide, rfl, rfl, rfl⟩

/-- C1 amended.  The `execute` command's trust check is advisory only: once
the wallet is loaded it always makes exactly one `getTransaction` call to
the action endpoint, whatever the trust classification of the host, and
the untrusted warning is emitted exactly when `isTrustedHost` is false;
no request is rejected before the Protocol Client call. -/
theorem execute_trust_advisory : ∀ (trustedHosts : List String) (url : String)
    (dryRun : Bool) (walletResult : Except String Unit)
    (txResult : Except String BlinkTransaction) (simResult : Except String SimulationResult)
    (sendResult : Except String String),
    (∀ u, walletResult = Except.ok u →
      (executeCommand trustedHosts url dryRun walletResult txResult simResult
          sendResult).getTransactionCalls = 1 ∧
      (executeCommand trustedHosts url dryRun walletResult txResult simResult
          sendResult).warnedUntrusted = !blinksIsTrustedHost trustedHosts url) ∧
    (executeCommand trustedHosts url dryRun walletResult txResult simResult
        sendResult).getTransactionCalls ≤ 1 := by
  intro T url dr w tx sim snd
  constructor
  · intro u hw
    subst hw
    cases tx <;> cases dr <;> cases sim <;> cases snd <;> simp [executeCommand]
  · cases w <;> cases tx <;> cases dr <;> cases sim <;> cases snd <;> simp [executeCommand]

/-! ## C4: the trust query of the execute path is boolean -/

/-- C4 counterexample.  A host present in neither registry list and a host
present in the malicious list receive the same answer from the execute
path's trust query (`false`), even though the registry model classifies
them differently (`Unknown` versus `Malicious`): the query is merely the
negation of trusted-membership, with no distinct `Unknown` value. -/
theorem trust_unknown_conflated_cex :
    blinksIsTrustedHost cexTrustedHosts "https://unknown.example/a"
      = blinksIsTrustedHost cexTrustedHosts "https://evil.example/a" ∧
    classifyHost cexTrustedHosts cexMaliciousHosts (urlHost "https://unknown.example/a")
      = TrustStatus.unknown ∧
    classifyHost cexTrustedHosts cexMaliciousHosts (urlHost "https://evil.example/a")
      = TrustStatus.malicious ∧
    blinksIsTrustedHost cexTrustedHosts "https://unknown.example/a" = false := by
  exact ⟨rfl, by decide, by decide, rfl⟩

/-- C4 amended.  The trust query the `execute` command consumes is the
boolean `isTrustedHost`: true exactly when the URL's host is in the
trusted list.  A host the registry model classifies `Unknown` yields
`false`, and so does any host outside the trusted list (malicious or not):
the three-way status is not observable at this interface. -/
theorem trust_query_is_boolean : ∀ (trustedHosts maliciousHosts : List String) (url : String),
    blinksIsTrustedHost trustedHosts url = trustedHosts.contains (urlHost url) ∧
    (classifyHost trustedHosts maliciousHosts (urlHost url) = TrustStatus.unknown →
      blinksIsTrustedHost trustedHosts url = false) ∧
    (trustedHosts.contains (urlHost url) = false →
      blinksIsTrustedHost trustedHosts url = false) := by
  intro T M url
  refine ⟨rfl, ?_, fun h => h⟩
  intro h
  unfold classifyHost at h
  split at h
  · exact absurd h (by simp)
  · split at h
    · exact absurd h (by simp)
    · next ht => simpa [blinksIsTrustedHost] using ht

/-! ## C7: exit codes -/

/-- C7.  The `inspect` and `execute` commands exit 0 exactly when no error
is surfaced and 1 whenever one is; in particular a GET answered with
HTTP 404 makes `inspect` surface `ActionFetchError{statusCode: 404}` and
exit 1, shown both for every resolvable URL and at the concrete scenario
URL. -/
theorem exit_codes_spec : ∀ (trustedHosts : List String) (url : String) (resp : HttpResp)
    (dryRun : Bool) (walletResult : Except String Unit)
    (txResult : Except String BlinkTransaction) (simResult : Except String SimulationResult)
    (sendResult : Except String String),
    ((inspectCommand trustedHosts url resp).err = none ↔
      (inspectCommand trustedHosts url resp).exitCode = 0) ∧
    (∀ e, (inspectCommand trustedHosts url resp).err = some e →
      (inspectCommand trustedHosts url resp).exitCode = 1) ∧
    (∀ canonical, resolveActionUrl url = Except.ok canonical → resp.status = 404 →
      inspectCommand trustedHosts url resp
        = { exitCode := 1, err := some (ErrKind.actionFetchError 404) }) ∧
    ((executeCommand trustedHosts url dryRun walletResult txResult simResult
        sendResult).surfaced = none ↔
      (executeCommand trustedHosts url dryRun walletResult txResult simResult
          sendResult).exitCode = 0) ∧
    inspectCommand cexTrustedHosts "https://jito.dial.to/stake" { status := 404, body := none }
      = { exitCode := 1, err := some (ErrKind.actionFetchError 404) } := by
  intro T url resp dr w tx sim snd
  refine ⟨?_, ?_, ?_, ?_, ?_⟩
  · cases h : inspectPipeline T url resp <;> simp [inspectCommand, h]
  · intro e he
    cases h : inspectPipeline T url resp <;> simp [inspectCommand, h] at he ⊢
  · intro c hc h404
    have hm : getMetadata resp = Except.error (ErrKind.actionFetchError 404) := by
      unfold getMetadata
      rw [h404, if_neg (by omega)]
    simp [inspectCommand, inspectPipeline, hc, hm]
  · cases w <;> cases tx <;> cases dr <;> cases sim <;> cases snd <;> simp [executeCommand]
  · rfl

/-! ## C6: every canonical or built URL is HTTPS -/

theorem resolveFuel_ok_https : ∀ (fuel : Nat) (s c : String),
    resolveActionUrlFuel fuel s = Except.ok c → strStarts "https://" c = true := by
  intro fuel
  induction fuel with
  | zero =>
    intro s c h
    unfold resolveActionUrlFuel at h
    split at h
    · exact mkCanonicalUrl_ok_https h
    · split at h
      · exact mkCanonicalUrl_ok_https h
      · split at h
        · cases h
        · exact mkCanonicalUrl_ok_https h
  | succ f ih =>
    intro s c h
    unfold resolveActionUrlFuel at h
    split at h
    · exact mkCanonicalUrl_ok_https h
    · split at h
      · exact mkCanonicalUrl_ok_https h
      · split at h
        · exact ih _ _ h
        · exact mkCanonicalUrl_ok_https h

/-- C6.  Every URL built by the Protocol Catalog's builders carries the
`https://` scheme, for all parameter values; CanonicalUrl construction
from a non-HTTPS input fails with `InvalidUrlKind`; and every CanonicalUrl
the Resolver produces carries the `https://` scheme. -/
theorem builders_canonical_https : ∀ (vaultSlug inputToken outputToken nftMint collection
    inMint outMint : String) (amount : Option Int) (rAmount : Int),
    strStarts "https://" (buildKaminoDepositUrl vaultSlug amount) = true ∧
    strStarts "https://" (buildKaminoWithdrawUrl vaultSlug amount) = true ∧
    strStarts "https://" (buildJitoStakeUrl amount) = true ∧
    strStarts "https://" (buildJupiterSwapUrl inputToken outputToken amount) = true ∧
    strStarts "https://" (buildRaydiumSwapUrl inMint outMint rAmount) = true ∧
    strStarts "https://" (buildMagicEdenBuyUrl nftMint) = true ∧
    strStarts "https://" (buildTensorBuyFloorUrl collection) = true ∧
    (∀ s, strStarts "https://" s = false →
      mkCanonicalUrl s = Except.error ErrKind.invalidUrlKind) ∧
    (∀ s c, resolveActionUrl s = Except.ok c → strStarts "https://" c = true) := by
  intro v i o nft coll im om amt ramt
  refine ⟨?_, ?_, ?_, ?_, ?_, ?_, ?_, ?_, ?_⟩
  · simp only [buildKaminoDepositUrl]
    split
    · repeat apply strStarts_https_append
      decide
    · repeat apply strStarts_https_append
      decide
  · simp only [buildKaminoWithdrawUrl]
    split
    · repeat apply strStarts_https_append
      decide
    · repeat apply strStarts_https_append
      decide
  · simp only [buildJitoStakeUrl]
    split
    · repeat apply strStarts_https_append
      decide
    · decide
  · simp only [buildJupiterSwapUrl]
    split
    · split
      · repeat apply strStarts_https_append
        decide
      · repeat apply strStarts_https_append
        decide
    · split
      · repeat apply strStarts_https_append
        decide
      · repeat apply strStarts_https_append
        decide
  · simp only [buildRaydiumSwapUrl]
    repeat apply strStarts_https_append
    decide
  · simp only [buildMagicEdenBuyUrl]
    apply strStarts_https_append
    decide
  · simp only [buildTensorBuyFloorUrl]
    apply strStarts_https_append
    decide
  · intro s hs
    unfold mkCanonicalUrl
    rw [if_neg (by simp [hs])]
  · intro s c h
    exact resolveFuel_ok_https 1 s c h

/-! ## C8: the Resolver normalizes every accepted encoding identically -/

theorem resolveFuel_plain (fuel : Nat) (u : String)
    (h1 : strStarts "https://" u = true)
    (h2 : strStarts "https://dial.to/" u = false) :
    resolveActionUrlFuel fuel u = Except.ok u := by
  have ha : strStarts "solana-action:" u = false :=
    strStarts_false_of_heads (p := "https://") (c := 'h') (d := 's')
      (by rfl) (by rfl) (by decide) h1
  have hb : strStarts "blink:" u = false :=
    strStarts_false_of_heads (p := "https://") (c := 'h') (d := 'b')
      (by rfl) (by rfl) (by decide) h1
  have hd : strStarts "https://dial.to/?action=" u = false := by
    cases hx : strStarts "https://dial.to/?action=" u with
    | false => rfl
    | true =>
      have hdial : strStarts "https://dial.to/" u = true :=
        strStarts_trans (by decide) hx
      rw [hdial] at h2
      cases h2
  unfold resolveActionUrlFuel
  simp [ha, hb, hd, mkCanonicalUrl, h1]

/-- C8.  For every HTTPS endpoint URL (one that is not itself a `dial.to`
interstitial and needs no percent-decoding), the Resolver maps all four
accepted encodings — plain, `solana-action:`-prefixed, `blink:`-prefixed,
and the `dial.to` interstitial — to the identical CanonicalUrl. -/
theorem resolver_normalizes : ∀ (u : String),
    strStarts "https://" u = true →
    strStarts "https://dial.to/" u = false →
    '%' ∉ u.data →
    resolveActionUrl u = Except.ok u ∧
    resolveActionUrl ("solana-action:" ++ u) = Except.ok u ∧
    resolveActionUrl ("blink:" ++ u) = Except.ok u ∧
    resolveActionUrl ("https://dial.to/?action=" ++ u) = Except.ok u := by
  intro u h1 h2 h3
  refine ⟨resolveFuel_plain 1 u h1 h2, ?_, ?_, ?_⟩
  · have hs : strStarts "solana-action:" ("solana-action:" ++ u) = true :=
      strStarts_self_append _ _
    have hdrop : strDropN 14 ("solana-action:" ++ u) = u :=
      strDropN_append "solana-action:" u
    simp [resolveActionUrl, resolveActionUrlFuel, hs, hdrop, mkCanonicalUrl, h1]
  · have hb : strStarts "blink:" ("blink:" ++ u) = true := strStarts_self_append _ _
    have hna : strStarts "solana-action:" ("blink:" ++ u) = false :=
      strStarts_false_of_heads (c := 'b') (d := 's') (by rfl) (by rfl) (by decide) hb
    have hdrop : strDropN 6 ("blink:" ++ u) = u := strDropN_append "blink:" u
    simp [resolveActionUrl, resolveActionUrlFuel, hna, hb, hdrop, mkCanonicalUrl, h1]
  · have hi : strStarts "https://dial.to/?action=" ("https://dial.to/?action=" ++ u) = true :=
      strStarts_self_append _ _
    have hh : strStarts "https://" ("https://dial.to/?action=" ++ u) = true :=
      strStarts_trans (by decide) hi
    have hna : strStarts "solana-action:" ("https://dial.to/?action=" ++ u) = false :=
      strStarts_false_of_heads (c := 'h') (d := 's') (by rfl) (by rfl) (by decide) hh
    have hnb : strStarts "blink:" ("https://dial.to/?action=" ++ u) = false :=
      strStarts_false_of_heads (c := 'h') (d := 'b') (by rfl) (by rfl) (by decide) hh
    have hdrop : strDropN 24 ("https://dial.to/?action=" ++ u) = u :=
      strDropN_append "https://dial.to/?action=" u
    have hstep : resolveActionUrl ("https://dial.to/?action=" ++ u)
        = resolveActionUrlFuel 0 (pctDecode (strDropN 24 ("https://dial.to/?action=" ++ u))) := by
      simp [resolveActionUrl, resolveActionUrlFuel, hna, hnb, hi]
    rw [hstep, hdrop, pctDecode_eq_self h3]
    exact resolveFuel_plain 0 u h1 h2

/-- C8 witness.  The hypotheses hold at the scenario endpoint
`https://jito.dial.to/stake`, and all four encodings of it — including the
spec's `solana-action:https://jito.dial.to/stake` — resolve to that
CanonicalUrl. -/
theorem resolver_normalizes_witness :
    strStarts "https://" "https://jito.dial.to/stake" = true ∧
    strStarts "https://dial.to/" "https://jito.dial.to/stake" = false ∧
    '%' ∉ "https://jito.dial.to/stake".data ∧
    resolveActionUrl "https://jito.dial.to/stake"
      = Except.ok "https://jito.dial.to/stake" ∧
    resolveActionUrl "solana-action:https://jito.dial.to/stake"
      = Except.ok "https://jito.dial.to/stake" ∧
    resolveActionUrl "blink:https://jito.dial.to/stake"
      = Except.ok "https://jito.dial.to/stake" ∧
    resolveActionUrl "https://dial.to/?action=https://jito.dial.to/stake"
      = Except.ok "https://jito.dial.to/stake" := by
  have e1 : "solana-action:" ++ "https://jito.dial.to/stake"
      = "solana-action:https://jito.dial.to/stake" := rfl
  have e2 : "blink:" ++ "https://jito.dial.to/stake"
      = "blink:https://jito.dial.to/stake" := rfl
  have e3 : "https://dial.to/?action=" ++ "https://jito.dial.to/stake"
      = "https://dial.to/?action=https://jito.dial.to/stake" := rfl
  have h := resolver_normalizes "https://jito.dial.to/stake" (by decide) (by decide) (by decide)
  exact ⟨by decide, by decide, by decide, h.1, e1 ▸ h.2.1, e2 ▸ h.2.2.1, e3 ▸ h.2.2.2⟩

/-! ## C9: findBestYield filtering and ordering -/

theorem findBestYieldKeeps_false_of_apy {o : FindBestYieldOptions} {m : DialectMarket}
    (h : (optNumTruthy o.minApy && decide (m.depositApy < o.minApy.getD 0)) = true) :
    findBestYieldKeeps o m = false := by
  unfold findBestYieldKeeps
  rw [if_pos h]

theorem findBestYieldKeeps_false_of_tvl {o : FindBestYieldOptions} {m : DialectMarket}
    (h : (optNumTruthy o.minTvl && decide (m.totalDepositUsd < o.minTvl.getD 0)) = true) :
    findBestYieldKeeps o m = false := by
  unfold findBestYieldKeeps
  by_cases g1 : (optNumTruthy o.minApy && decide (m.depositApy < o.minApy.getD 0)) = true
  · rw [if_pos g1]
  · rw [if_neg g1, if_pos h]

theorem findBestYieldKeeps_false_of_providers {o : FindBestYieldOptions} {m : DialectMarket}
    (h : (o.providers.isSome && !((o.providers.getD []).contains m.provider.id)) = true) :
    findBestYieldKeeps o m = false := by
  unfold findBestYieldKeeps
  by_cases g1 : (optNumTruthy o.minApy && decide (m.depositApy < o.minApy.getD 0)) = true
  · rw [if_pos g1]
  · by_cases g2 : (optNumTruthy o.minTvl && decide (m.totalDepositUsd < o.minTvl.getD 0)) = true
    · rw [if_neg g1, if_pos g2]
    · rw [if_neg g1, if_neg g2, if_pos h]

/-- C9 counterexample.  With the filter `minApy = 0` supplied, a market
whose deposit APY is negative is still returned by `findBestYield`
(JavaScript truthiness skips the guard for the value 0), so a returned
market violates `depositApy ≥ minApy` although `minApy` was given. -/
theorem findBestYield_minApy_zero_cex :
    cexYieldOptions.minApy = some 0 ∧
    findBestYield [cexYieldMarket] cexYieldOptions = [cexYieldMarket] ∧
    cexYieldMarket.depositApy < 0 := by
  exact ⟨rfl, rfl, by decide⟩

/-- C9 amended.  Every market `findBestYield` returns comes from the
fetched list and satisfies every supplied nonzero numeric filter
(`depositApy ≥ minApy` when a nonzero `minApy` is given, `totalDepositUsd ≥
minTvl` when a nonzero `minTvl` is given — a zero threshold is falsy to
JavaScript and its guard is skipped) and the provider filter whenever
given; and the returned list is sorted in non-increasing `depositApy`
order. -/
theorem findBestYield_filters_sorted : ∀ (markets : List DialectMarket)
    (o : FindBestYieldOptions),
    (∀ m, m ∈ findBestYield markets o →
      m ∈ markets ∧
      (∀ v, o.minApy = some v → v ≠ 0 → v ≤ m.depositApy) ∧
      (∀ v, o.minTvl = some v → v ≠ 0 → v ≤ m.totalDepositUsd) ∧
      (∀ ps, o.providers = some ps → ps.contains m.provider.id = true)) ∧
    List.Sorted apyDesc (findBestYield markets o) := by
  intro markets o
  constructor
  · intro m hm
    have hm' : m ∈ markets.filter (findBestYieldKeeps o) :=
      ((List.perm_insertionSort apyDesc _).mem_iff).1 hm
    rw [List.mem_filter] at hm'
    obtain ⟨hmem, hkeep⟩ := hm'
    refine ⟨hmem, ?_, ?_, ?_⟩
    · intro v hv hv0
      by_contra hlt
      have hg : (optNumTruthy o.minApy && decide (m.depositApy < o.minApy.getD 0)) = true := by
        rw [hv]
        simp only [optNumTruthy, Option.getD_some, Bool.and_eq_true, bne_iff_ne,
          decide_eq_true_eq]
        exact ⟨hv0, by omega⟩
      rw [findBestYieldKeeps_false_of_apy hg] at hkeep
      cases hkeep
    · intro v hv hv0
      by_contra hlt
      have hg : (optNumTruthy o.minTvl && decide (m.totalDepositUsd < o.minTvl.getD 0)) = true := by
        rw [hv]
        simp only [optNumTruthy, Option.getD_some, Bool.and_eq_true, bne_iff_ne,
          decide_eq_true_eq]
        exact ⟨hv0, by omega⟩
      rw [findBestYieldKeeps_false_of_tvl hg] at hkeep
      cases hkeep
    · intro ps hp
      by_contra hc
      have hg : (o.providers.isSome && !((o.providers.getD []).contains m.provider.id)) = true := by
        rw [hp]
        simp only [Option.isSome_some, Option.getD_some, Bool.true_and, Bool.not_eq_true']
        exact Bool.not_eq_true _ ▸ (Bool.eq_false_iff.mpr hc)
      rw [findBestYieldKeeps_false_of_providers hg] at hkeep
      cases hkeep
  · exact List.sorted_insertionSort apyDesc _

end SolanaBlinks
